import Mathlib

/-!
Shallow embedding of the device-creation workflow of the
corellium-typescript client (src/devices.ts, src/errors.ts):
error classification, the firmware-asset remediation loop of
`create`, and the `list` / `search` endpoints.

The embedding makes all effects explicit: a `World` records what the
device-creation server, the environment variable, the asset URLs and
the image-registration collaborator answer, and every operation
returns the ordered list of observable events (HTTP posts, asset
fetches, scratch-file writes, registration calls) next to its outcome.
Recursion of `create` is modelled with fuel; divergence is the
statement that every amount of fuel is exhausted.
-/

namespace CorelliumTS

/-- A raw error payload of the device API, as in `RawSDKError` extended by
`RawMissingFirmwareAssetError` (src/errors.ts).  `missingFwAssets = none`
models the field being absent (or `null`/`undefined`), which is falsy in
the `if (error.missingFwAssets)` test of devices.ts; `some l` models a
present array `l`, which is truthy even when `l` is empty. -/
structure ErrorPayload where
  error : String
  errorID : String
  field : Option String
  missingFwAssets : Option (List String)
  projectId : Option String
  deriving Repr, DecidableEq

/-- The result of classifying a failed creation response: either the
generic `CorelliumSDKError` (message, errorID, optional field) or the
`MissingFirmwareAssetError` which additionally keeps the project id and
the ordered asset URL list (src/errors.ts). -/
inductive ClassifiedError where
  | generic (message errorID : String) (field : Option String)
  | missingFw (message errorID : String) (field : Option String)
      (projectId : Option String) (missingFwAssets : List String)
  deriving Repr, DecidableEq

/-- Classification as performed at devices.ts line 74: the payload is a
missing-firmware-asset error exactly when its `missingFwAssets` field is
present (a JavaScript truthiness test on the field; arrays of any length,
including the empty array, are truthy). -/
def classify (p : ErrorPayload) : ClassifiedError :=
  match p.missingFwAssets with
  | some assets =>
      ClassifiedError.missingFw p.error p.errorID p.field p.projectId assets
  | none => ClassifiedError.generic p.error p.errorID p.field

/-- True exactly on the generic branch of a classified error. -/
def isGeneric : ClassifiedError → Bool
  | ClassifiedError.generic _ _ _ => true
  | ClassifiedError.missingFw _ _ _ _ _ => false

/-- The arguments of `devices.create`: the creation parameters that the
claims inspect, with `patches` still optional (the TypeScript signature
defaults it to `jailbroken` on entry). -/
structure CreateArgs where
  project : String
  name : String
  flavor : String
  os : String
  patches : Option String
  deriving Repr, DecidableEq

/-- The body actually posted to `/v1/instances`: the spread of the
arguments with the resolved patch profile folded into a one-element
list (devices.ts lines 66-71). -/
structure SentBody where
  project : String
  name : String
  flavor : String
  os : String
  patches : List String
  deriving Repr, DecidableEq

/-- Build the posted body from the arguments: `patches` defaults to
`jailbroken` and is wrapped in a singleton list. -/
def mkSentBody (a : CreateArgs) : SentBody :=
  { project := a.project
    name := a.name
    flavor := a.flavor
    os := a.os
    patches := [a.patches.getD "jailbroken"] }

/-- A call to `imageApi.create` (devices.ts lines 86-93). -/
structure RegisterCall where
  type : String
  encoding : String
  encapsulated : Bool
  name : String
  project : Option String
  file : String
  deriving Repr, DecidableEq

/-- The fixed registration metadata the code submits for a fetched asset:
type `fwasset`, encoding `plain`, `encapsulated := false`, the source URL
as name, the classified error projectId, and the fetched content. -/
def mkRegisterCall (projectId : Option String) (url content : String) :
    RegisterCall :=
  { type := "fwasset"
    encoding := "plain"
    encapsulated := false
    name := url
    project := projectId
    file := content }

/-- Observable events of the workflow, in the order they happen. -/
inductive Event where
  | post (body : SentBody)
  | getInstances (query : Option String)
  | fetchAsset (url : String)
  | writeScratchFile (url : String) (content : String)
  | register (call : RegisterCall)
  deriving Repr, DecidableEq

/-- Errors the workflow can throw, abstracting the JavaScript classes:
`sdkError` is `CorelliumSDKError`, `plainError` is a bare
`new Error(message)`, and `registrationError` is an uncaught failure of
`imageApi.create` propagating out. -/
inductive ThrownError where
  | sdkError (message errorID : String) (field : Option String)
  | plainError (message : String)
  | registrationError (message : String)
  deriving Repr, DecidableEq

/-- The message of the error thrown when remediation is not opted in
(devices.ts line 102). -/
def remediationDisabledMessage : String :=
  "This instance requires additional firmware assets. To automatically download firmware assets and associate them with your domain, set the environment variable FETCH_FIRMWARE_ASSETS=1"

/-- The outcome of a `create` call under bounded fuel. -/
inductive Outcome where
  | ok (data : String)
  | threw (e : ThrownError)
  | outOfFuel
  deriving Repr, DecidableEq

/-- The environment of a workflow run: the answers of the
device-creation server per attempt, the value of the
`FETCH_FIRMWARE_ASSETS` environment variable as read when the n-th
failure is handled, the result of fetching an asset URL (`some content`
models a successful response with a body, `none` a non-success status or
bodiless response), the error raised by `imageApi.create` if any, and
the answers of the listing endpoint. -/
structure World where
  server : Nat → Sum String ErrorPayload
  envVar : Nat → Option String
  fetchUrl : String → Option String
  registerErr : RegisterCall → Option String
  listResp : Sum String ErrorPayload
  searchResp : String → Sum String ErrorPayload

/-- The remediation loop body (devices.ts lines 77-95): for each URL in
order, fetch it; on a failed or bodiless response skip silently; on
success write the scratch file and call `imageApi.create`; an error of
that call aborts the loop immediately and is returned. -/
def remediate (w : World) (projectId : Option String) :
    List String → List Event × Option String
  | [] => ([], none)
  | url :: rest =>
    match w.fetchUrl url with
    | none =>
      (Event.fetchAsset url :: (remediate w projectId rest).1,
        (remediate w projectId rest).2)
    | some content =>
      match w.registerErr (mkRegisterCall projectId url content) with
      | some e =>
        ([Event.fetchAsset url, Event.writeScratchFile url content,
          Event.register (mkRegisterCall projectId url content)], some e)
      | none =>
        (Event.fetchAsset url :: Event.writeScratchFile url content ::
          Event.register (mkRegisterCall projectId url content) ::
            (remediate w projectId rest).1,
          (remediate w projectId rest).2)

/-- The recursive `create` of devices.ts (lines 57-110), with fuel:
post the body; on success return the data; on failure classify; a
generic error is thrown as `CorelliumSDKError`; a missing-asset error
checks `FETCH_FIRMWARE_ASSETS === '1'` (re-read at this attempt) and
either throws the opt-in message or remediates every listed asset and
recurses with the identical arguments. -/
def createLoop (w : World) (a : CreateArgs) : Nat → Nat → List Event × Outcome
  | _, 0 => ([], Outcome.outOfFuel)
  | attempt, fuel + 1 =>
    match w.server attempt with
    | Sum.inl data => ([Event.post (mkSentBody a)], Outcome.ok data)
    | Sum.inr p =>
      match classify p with
      | ClassifiedError.generic msg eid f =>
        ([Event.post (mkSentBody a)],
          Outcome.threw (ThrownError.sdkError msg eid f))
      | ClassifiedError.missingFw _ _ _ pid urls =>
        if w.envVar attempt = some "1" then
          match (remediate w pid urls).2 with
          | some e =>
            (Event.post (mkSentBody a) :: (remediate w pid urls).1,
              Outcome.threw (ThrownError.registrationError e))
          | none =>
            (Event.post (mkSentBody a) ::
              ((remediate w pid urls).1 ++ (createLoop w a (attempt + 1) fuel).1),
              (createLoop w a (attempt + 1) fuel).2)
        else
          ([Event.post (mkSentBody a)],
            Outcome.threw (ThrownError.plainError remediationDisabledMessage))

/-- `devices.create`: run the loop from attempt 0. -/
def create (w : World) (fuel : Nat) (a : CreateArgs) : List Event × Outcome :=
  createLoop w a 0 fuel

/-- `devices.list` (devices.ts lines 118-126): GET the instances; on an
error payload throw a bare Error with the payload message, with no
classification and no remediation. -/
def list (w : World) : List Event × Except ThrownError String :=
  (([Event.getInstances none]),
    match w.listResp with
    | Sum.inl data => Except.ok data
    | Sum.inr p => Except.error (ThrownError.plainError p.error))

/-- `devices.search` (devices.ts lines 135-149): GET the instances with a
name query; on an error payload throw a bare Error with the payload
message, with no classification and no remediation. -/
def search (w : World) (name : String) : List Event × Except ThrownError String :=
  (([Event.getInstances (some name)]),
    match w.searchResp name with
    | Sum.inl data => Except.ok data
    | Sum.inr p => Except.error (ThrownError.plainError p.error))

/-! ### Helper lemmas -/

/-- Inversion of classification on the missing-firmware branch. -/
theorem classify_missingFw_inv (p : ErrorPayload)
    (m eid : String) (f pid : Option String) (urls : List String)
    (h : classify p = ClassifiedError.missingFw m eid f pid urls) :
    p.missingFwAssets = some urls ∧ pid = p.projectId := by
  cases hm : p.missingFwAssets with
  | none => simp [classify, hm] at h
  | some l =>
    simp only [classify, hm] at h
    cases h
    exact ⟨rfl, rfl⟩

/-- Classification of a payload with a present asset list. -/
theorem classify_of_some (p : ErrorPayload) (urls : List String)
    (hm : p.missingFwAssets = some urls) :
    classify p =
      ClassifiedError.missingFw p.error p.errorID p.field p.projectId urls := by
  simp [classify, hm]

/-- When the registrar never fails, the remediation loop reports no
error. -/
theorem remediate_err_none (w : World) (pid : Option String)
    (hr : ∀ c, w.registerErr c = none) :
    ∀ urls, (remediate w pid urls).2 = none := by
  intro urls
  induction urls with
  | nil => rfl
  | cons u rest ih =>
    cases hf : w.fetchUrl u with
    | none => simpa [remediate, hf] using ih
    | some content => simp [remediate, hf, hr, ih]

/-- Every URL of the list gets a fetch event in the remediation trace,
provided the registrar never fails. -/
theorem remediate_fetch_mem (w : World) (pid : Option String)
    (hr : ∀ c, w.registerErr c = none) :
    ∀ urls, ∀ u ∈ urls, Event.fetchAsset u ∈ (remediate w pid urls).1 := by
  intro urls
  induction urls with
  | nil => intro u hu; cases hu
  | cons v rest ih =>
    intro u hu
    cases hf : w.fetchUrl v with
    | none =>
      rcases List.mem_cons.mp hu with h | h
      · subst h; simp [remediate, hf]
      · simp only [remediate, hf]
        exact List.mem_cons_of_mem _ (ih u h)
    | some content =>
      rcases List.mem_cons.mp hu with h | h
      · subst h; simp [remediate, hf, hr]
      · simp only [remediate, hf, hr]
        exact List.mem_cons_of_mem _ (List.mem_cons_of_mem _
          (List.mem_cons_of_mem _ (ih u h)))

/-- Every successfully fetched URL of the list gets a registration event
in the remediation trace, provided the registrar never fails. -/
theorem remediate_register_mem (w : World) (pid : Option String)
    (hr : ∀ c, w.registerErr c = none) :
    ∀ urls, ∀ u ∈ urls, ∀ content, w.fetchUrl u = some content →
      Event.register (mkRegisterCall pid u content) ∈
        (remediate w pid urls).1 := by
  intro urls
  induction urls with
  | nil => intro u hu; cases hu
  | cons v rest ih =>
    intro u hu content hc
    cases hf : w.fetchUrl v with
    | none =>
      rcases List.mem_cons.mp hu with h | h
      · subst h; rw [hf] at hc; cases hc
      · simp only [remediate, hf]
        exact List.mem_cons_of_mem _ (ih u h content hc)
    | some c0 =>
      rcases List.mem_cons.mp hu with h | h
      · subst h
        rw [hf] at hc
        cases hc
        simp [remediate, hf, hr]
      · simp only [remediate, hf, hr]
        exact List.mem_cons_of_mem _ (List.mem_cons_of_mem _
          (List.mem_cons_of_mem _ (ih u h content hc)))

/-- With positive fuel, the creation trace always starts with the post of
the resolved body. -/
theorem createLoop_head_post (w : World) (a : CreateArgs)
    (attempt fuel : Nat) :
    ∃ rest, (createLoop w a attempt (fuel + 1)).1 =
      Event.post (mkSentBody a) :: rest := by
  cases hs : w.server attempt with
  | inl data => exact ⟨[], by simp [createLoop, hs]⟩
  | inr p =>
    cases hc : classify p with
    | generic m eid f => exact ⟨[], by simp [createLoop, hs, hc]⟩
    | missingFw m eid f pid urls =>
      by_cases he : w.envVar attempt = some "1"
      · cases hre : (remediate w pid urls).2 with
        | some e =>
          exact ⟨(remediate w pid urls).1, by simp [createLoop, hs, hc, he, hre]⟩
        | none =>
          exact ⟨(remediate w pid urls).1 ++ (createLoop w a (attempt + 1) fuel).1,
            by simp [createLoop, hs, hc, he, hre]⟩
      · exact ⟨[], by simp [createLoop, hs, hc, he]⟩

/-- One unfolding of a successful remediation pass: a missing-asset
failure with remediation enabled and no registration error posts, runs
the remediation trace, and continues with the identical arguments. -/
theorem createLoop_remediation_step (w : World) (a : CreateArgs)
    (attempt fuel : Nat) (p : ErrorPayload) (urls : List String)
    (hs : w.server attempt = Sum.inr p)
    (hm : p.missingFwAssets = some urls)
    (he : w.envVar attempt = some "1")
    (hre : (remediate w p.projectId urls).2 = none) :
    createLoop w a attempt (fuel + 1) =
      (Event.post (mkSentBody a) ::
        ((remediate w p.projectId urls).1 ++ (createLoop w a (attempt + 1) fuel).1),
        (createLoop w a (attempt + 1) fuel).2) := by
  simp [createLoop, hs, classify_of_some p urls hm, he, hre]

/-- Every registration event of a remediation trace comes from a URL of
the list whose fetch succeeded, with the fixed metadata. -/
theorem remediate_register_inv (w : World) (pid : Option String) :
    ∀ urls c, Event.register c ∈ (remediate w pid urls).1 →
      ∃ u content, u ∈ urls ∧ w.fetchUrl u = some content ∧
        c = mkRegisterCall pid u content := by
  intro urls
  induction urls with
  | nil => intro c hc; cases hc
  | cons v rest ih =>
    intro c hc
    cases hf : w.fetchUrl v with
    | none =>
      rw [remediate, hf] at hc
      rcases List.mem_cons.mp hc with h | h
      · cases h
      · obtain ⟨u, content, hu, hfu, hcall⟩ := ih c h
        exact ⟨u, content, List.mem_cons_of_mem _ hu, hfu, hcall⟩
    | some c0 =>
      cases hre : w.registerErr (mkRegisterCall pid v c0) with
      | some e =>
        simp only [remediate, hf, hre] at hc
        rcases List.mem_cons.mp hc with h | h
        · cases h
        rcases List.mem_cons.mp h with h | h
        · cases h
        rcases List.mem_cons.mp h with h | h
        · cases h; exact ⟨v, c0, List.mem_cons_self v rest, hf, rfl⟩
        · cases h
      | none =>
        simp only [remediate, hf, hre] at hc
        rcases List.mem_cons.mp hc with h | h
        · cases h
        rcases List.mem_cons.mp h with h | h
        · cases h
        rcases List.mem_cons.mp h with h | h
        · cases h; exact ⟨v, c0, List.mem_cons_self v rest, hf, rfl⟩
        · obtain ⟨u, content, hu, hfu, hcall⟩ := ih c h
          exact ⟨u, content, List.mem_cons_of_mem _ hu, hfu, hcall⟩

/-- Every registration event of a creation trace comes from the asset
list of some missing-asset failure answered by the server, with the
fixed metadata and that failure's project id. -/
theorem createLoop_register_inv (w : World) (a : CreateArgs) :
    ∀ fuel attempt c, Event.register c ∈ (createLoop w a attempt fuel).1 →
      ∃ n p urls u content, w.server n = Sum.inr p ∧
        p.missingFwAssets = some urls ∧ u ∈ urls ∧
        w.fetchUrl u = some content ∧ c = mkRegisterCall p.projectId u content := by
  intro fuel
  induction fuel with
  | zero => intro attempt c hc; cases hc
  | succ fuel ih =>
    intro attempt c hc
    cases hs : w.server attempt with
    | inl data => simp [createLoop, hs] at hc
    | inr p =>
      cases hcl : classify p with
      | generic m eid f => simp [createLoop, hs, hcl] at hc
      | missingFw m eid f pid urls =>
        obtain ⟨hm, hpid⟩ := classify_missingFw_inv p m eid f pid urls hcl
        subst hpid
        by_cases he : w.envVar attempt = some "1"
        · cases hre : (remediate w p.projectId urls).2 with
          | some e =>
            simp only [createLoop, hs, hcl, he, if_pos, hre] at hc
            rcases List.mem_cons.mp hc with h | h
            · cases h
            · obtain ⟨u, content, hu, hfu, hcall⟩ :=
                remediate_register_inv w p.projectId urls c h
              exact ⟨attempt, p, urls, u, content, hs, hm, hu, hfu, hcall⟩
          | none =>
            simp only [createLoop, hs, hcl, he, if_pos, hre] at hc
            rcases List.mem_cons.mp hc with h | h
            · cases h
            rcases List.mem_append.mp h with h | h
            · obtain ⟨u, content, hu, hfu, hcall⟩ :=
                remediate_register_inv w p.projectId urls c h
              exact ⟨attempt, p, urls, u, content, hs, hm, hu, hfu, hcall⟩
            · exact ih (attempt + 1) c h
        · simp [createLoop, hs, hcl, he] at hc

/-! ### Sample payloads and worlds used by witnesses -/

/-- Error payload whose missingFwAssets field is present but empty. -/
def emptyAssetsPayload : ErrorPayload :=
  { error := "firmware assets missing"
    errorID := "MissingFwAssets"
    field := none
    missingFwAssets := some []
    projectId := some "p1" }

/-- Error payload listing two missing firmware assets of project p1. -/
def sampleMissingPayload : ErrorPayload :=
  { error := "firmware assets missing"
    errorID := "MissingFwAssets"
    field := some "fwpackage"
    missingFwAssets := some ["https://x/fw1", "https://x/fw2"]
    projectId := some "p1" }

/-- The creation arguments of the end-to-end scenario of the spec. -/
def a0 : CreateArgs :=
  { project := "p1", name := "d1", flavor := "ranchu", os := "14.0.0",
    patches := none }

/-- World whose first creation attempt fails with two missing assets and
whose second succeeds; remediation is enabled, every fetch succeeds and
registration never fails. -/
def w2 : World :=
  { server := fun n => if n = 0 then Sum.inr sampleMissingPayload else Sum.inl "d1-instance"
    envVar := fun _ => some "1"
    fetchUrl := fun _ => some "blob"
    registerErr := fun _ => none
    listResp := Sum.inl ""
    searchResp := fun _ => Sum.inl "" }

/-! ### Claims -/

/-- Claim C1, counterexample: the payload whose missingFwAssets field is
present but EMPTY is classified as a MissingFirmwareAssetError, not as a
GenericError — the code tests JavaScript truthiness of the field, and an
empty array is truthy — refuting the claimed equivalence with carrying a
non-empty list. -/
theorem C1_counterexample :
    emptyAssetsPayload.missingFwAssets = some ([] : List String) ∧
    isGeneric (classify emptyAssetsPayload) = false ∧
    classify emptyAssetsPayload =
      ClassifiedError.missingFw "firmware assets missing" "MissingFwAssets"
        none (some "p1") [] :=
  ⟨rfl, rfl, rfl⟩

/-- Claim C1 (amended): classification treats a payload as a
MissingFirmwareAssetError iff its missingFwAssets field is present at
all (an array of any length, the empty array included); in that case the
resulting error preserves the list order and the project id exactly, and
otherwise it yields a GenericError whose message, errorID and field
equal those of the input payload. -/
theorem C1_classification (p : ErrorPayload) :
    (isGeneric (classify p) = false ↔ p.missingFwAssets.isSome = true) ∧
    (∀ urls, p.missingFwAssets = some urls →
      classify p =
        ClassifiedError.missingFw p.error p.errorID p.field p.projectId urls) ∧
    (p.missingFwAssets = none →
      classify p = ClassifiedError.generic p.error p.errorID p.field) := by
  refine ⟨?_, ?_, ?_⟩
  · cases hm : p.missingFwAssets <;> simp [classify, hm, isGeneric]
  · intro urls hm; exact classify_of_some p urls hm
  · intro hm; simp [classify, hm]

/-- Claim C1, witness at a two-asset payload. -/
theorem C1_classification_witness :
    classify sampleMissingPayload =
      ClassifiedError.missingFw "firmware assets missing" "MissingFwAssets"
        (some "fwpackage") (some "p1") ["https://x/fw1", "https://x/fw2"] :=
  (C1_classification sampleMissingPayload).2.1 _ rfl

/-- Claim C2: with remediation enabled and a first failure listing assets
u1 and u2, the trace fetches, writes and registers u1 strictly before
fetching u2, and after the list the identical creation body — same
project, name, flavor, os and resolved patches — is posted again. -/
theorem C2_order_and_identical_retry (w : World) (a : CreateArgs)
    (p : ErrorPayload) (u1 u2 c1 c2 : String) (fuel : Nat)
    (hs : w.server 0 = Sum.inr p)
    (hm : p.missingFwAssets = some [u1, u2])
    (he : w.envVar 0 = some "1")
    (hf1 : w.fetchUrl u1 = some c1)
    (hf2 : w.fetchUrl u2 = some c2)
    (hr : ∀ c, w.registerErr c = none) :
    ∃ rest, (create w (fuel + 2) a).1 =
      Event.post (mkSentBody a) ::
      Event.fetchAsset u1 :: Event.writeScratchFile u1 c1 ::
      Event.register (mkRegisterCall p.projectId u1 c1) ::
      Event.fetchAsset u2 :: Event.writeScratchFile u2 c2 ::
      Event.register (mkRegisterCall p.projectId u2 c2) ::
      Event.post (mkSentBody a) :: rest := by
  have hrem : remediate w p.projectId [u1, u2] =
      ([Event.fetchAsset u1, Event.writeScratchFile u1 c1,
        Event.register (mkRegisterCall p.projectId u1 c1),
        Event.fetchAsset u2, Event.writeScratchFile u2 c2,
        Event.register (mkRegisterCall p.projectId u2 c2)], none) := by
    simp [remediate, hf1, hf2, hr]
  obtain ⟨tail, htail⟩ := createLoop_head_post w a 1 fuel
  refine ⟨tail, ?_⟩
  have hstep := createLoop_remediation_step w a 0 (fuel + 1) p [u1, u2] hs hm he
    (by rw [hrem])
  show (createLoop w a 0 (fuel + 1 + 1)).1 = _
  rw [hstep]
  simp only [hrem, htail]
  rfl

/-- Claim C2, witness: the concrete two-asset world, fuel 2. -/
theorem C2_order_and_identical_retry_witness :
    ∃ rest, (create w2 2 a0).1 =
      Event.post (mkSentBody a0) ::
      Event.fetchAsset "https://x/fw1" ::
      Event.writeScratchFile "https://x/fw1" "blob" ::
      Event.register (mkRegisterCall (some "p1") "https://x/fw1" "blob") ::
      Event.fetchAsset "https://x/fw2" ::
      Event.writeScratchFile "https://x/fw2" "blob" ::
      Event.register (mkRegisterCall (some "p1") "https://x/fw2" "blob") ::
      Event.post (mkSentBody a0) :: rest :=
  C2_order_and_identical_retry w2 a0 sampleMissingPayload
    "https://x/fw1" "https://x/fw2" "blob" "blob" 0
    rfl rfl rfl rfl rfl (fun _ => rfl)

/-- Claim C3: a missing-asset failure with the remediation opt-in not set
to the exact string 1 throws the dedicated opt-in error — the bare Error
carrying the instructive FETCH_FIRMWARE_ASSETS message — and the trace
holds the single post: zero asset fetches and zero registrations. -/
theorem C3_disabled_no_side_effects (w : World) (a : CreateArgs)
    (p : ErrorPayload) (urls : List String) (fuel : Nat)
    (hs : w.server 0 = Sum.inr p)
    (hm : p.missingFwAssets = some urls)
    (he : w.envVar 0 ≠ some "1") :
    create w (fuel + 1) a =
      ([Event.post (mkSentBody a)],
        Outcome.threw (ThrownError.plainError remediationDisabledMessage)) ∧
    (∀ u, Event.fetchAsset u ∉ (create w (fuel + 1) a).1) ∧
    (∀ c, Event.register c ∉ (create w (fuel + 1) a).1) := by
  have h1 : create w (fuel + 1) a =
      ([Event.post (mkSentBody a)],
        Outcome.threw (ThrownError.plainError remediationDisabledMessage)) := by
    simp [create, createLoop, hs, classify_of_some p urls hm, he]
  refine ⟨h1, ?_, ?_⟩ <;> intro x hx <;> rw [h1] at hx <;> simp at hx

/-- World of the disabled-remediation scenario: the first attempt fails
with missing assets while FETCH_FIRMWARE_ASSETS is unset. -/
def w3 : World :=
  { server := fun _ => Sum.inr sampleMissingPayload
    envVar := fun _ => none
    fetchUrl := fun _ => some "blob"
    registerErr := fun _ => none
    listResp := Sum.inl ""
    searchResp := fun _ => Sum.inl "" }

/-- Claim C3, witness at the concrete disabled world. -/
theorem C3_disabled_no_side_effects_witness :
    create w3 1 a0 =
      ([Event.post (mkSentBody a0)],
        Outcome.threw (ThrownError.plainError remediationDisabledMessage)) ∧
    (∀ u, Event.fetchAsset u ∉ (create w3 1 a0).1) ∧
    (∀ c, Event.register c ∉ (create w3 1 a0).1) :=
  C3_disabled_no_side_effects w3 a0 sampleMissingPayload
    ["https://x/fw1", "https://x/fw2"] 0 rfl rfl (by decide)

/-- Claim C4: when the server answers every creation attempt with a
missing-firmware-asset error, remediation is enabled throughout and
registration never fails, the recursion exhausts every amount of fuel —
no retry bound exists and the operation never terminates. -/
theorem C4_unbounded_recursion (w : World) (a : CreateArgs)
    (hs : ∀ n, ∃ p urls, w.server n = Sum.inr p ∧ p.missingFwAssets = some urls)
    (he : ∀ n, w.envVar n = some "1")
    (hr : ∀ c, w.registerErr c = none) :
    ∀ fuel attempt, (createLoop w a attempt fuel).2 = Outcome.outOfFuel := by
  intro fuel
  induction fuel with
  | zero => intro attempt; rfl
  | succ fuel ih =>
    intro attempt
    obtain ⟨p, urls, hsn, hmn⟩ := hs attempt
    rw [createLoop_remediation_step w a attempt fuel p urls hsn hmn (he attempt)
      (remediate_err_none w p.projectId hr urls)]
    exact ih (attempt + 1)

/-- World that always reports the same missing assets with remediation
enabled; asset fetches fail, so nothing ever gets registered. -/
def w4 : World :=
  { server := fun _ => Sum.inr sampleMissingPayload
    envVar := fun _ => some "1"
    fetchUrl := fun _ => none
    registerErr := fun _ => none
    listResp := Sum.inl ""
    searchResp := fun _ => Sum.inl "" }

/-- Claim C4, witness: fuel 3 is exhausted in the always-failing world. -/
theorem C4_unbounded_recursion_witness :
    (createLoop w4 a0 0 3).2 = Outcome.outOfFuel :=
  C4_unbounded_recursion w4 a0
    (fun _ => ⟨sampleMissingPayload, ["https://x/fw1", "https://x/fw2"], rfl, rfl⟩)
    (fun _ => rfl) (fun _ => rfl) 3 0

/-- Claim C5: in a remediation pass every entry of the missing-asset list
is processed — its fetch attempted, and a registration attempted whenever
the fetch succeeded — before the retry post is issued, and the retry
posts the same resolved body as the original request. -/
theorem C5_all_processed_before_retry (w : World) (a : CreateArgs)
    (p : ErrorPayload) (urls : List String) (fuel : Nat)
    (hs : w.server 0 = Sum.inr p)
    (hm : p.missingFwAssets = some urls)
    (he : w.envVar 0 = some "1")
    (hr : ∀ c, w.registerErr c = none) :
    ∃ rest, (create w (fuel + 2) a).1 =
        Event.post (mkSentBody a) ::
          ((remediate w p.projectId urls).1 ++
            (Event.post (mkSentBody a) :: rest)) ∧
      (∀ u ∈ urls, Event.fetchAsset u ∈ (remediate w p.projectId urls).1) ∧
      (∀ u ∈ urls, ∀ content, w.fetchUrl u = some content →
        Event.register (mkRegisterCall p.projectId u content) ∈
          (remediate w p.projectId urls).1) := by
  obtain ⟨tail, htail⟩ := createLoop_head_post w a 1 fuel
  refine ⟨tail, ?_, remediate_fetch_mem w p.projectId hr urls,
    remediate_register_mem w p.projectId hr urls⟩
  have hstep := createLoop_remediation_step w a 0 (fuel + 1) p urls hs hm he
    (remediate_err_none w p.projectId hr urls)
  show (createLoop w a 0 (fuel + 1 + 1)).1 = _
  rw [hstep]
  simp only [htail]

/-- Claim C5, witness at the concrete two-asset world, fuel 2. -/
theorem C5_all_processed_before_retry_witness :
    ∃ rest, (create w2 2 a0).1 =
        Event.post (mkSentBody a0) ::
          ((remediate w2 (some "p1") ["https://x/fw1", "https://x/fw2"]).1 ++
            (Event.post (mkSentBody a0) :: rest)) ∧
      (∀ u ∈ ["https://x/fw1", "https://x/fw2"], Event.fetchAsset u ∈
        (remediate w2 (some "p1") ["https://x/fw1", "https://x/fw2"]).1) ∧
      (∀ u ∈ ["https://x/fw1", "https://x/fw2"], ∀ content,
        w2.fetchUrl u = some content →
        Event.register (mkRegisterCall (some "p1") u content) ∈
          (remediate w2 (some "p1") ["https://x/fw1", "https://x/fw2"]).1) :=
  C5_all_processed_before_retry w2 a0 sampleMissingPayload
    ["https://x/fw1", "https://x/fw2"] 0 rfl rfl rfl (fun _ => rfl)

/-- Claim C6: an asset URL whose fetch fails (non-success status or no
body) is silently skipped — its only trace event is the fetch attempt,
no error is recorded beyond the tail's, and the loop continues with the
rest of the list; moreover no scratch file is ever written and no
registration call is ever made for that URL in any remediation list. -/
theorem C6_failed_fetch_skipped (w : World) (pid : Option String)
    (url : String) (rest : List String)
    (hf : w.fetchUrl url = none) :
    remediate w pid (url :: rest) =
      (Event.fetchAsset url :: (remediate w pid rest).1,
        (remediate w pid rest).2) ∧
    (∀ l content,
      Event.writeScratchFile url content ∉ (remediate w pid l).1) ∧
    (∀ l content,
      Event.register (mkRegisterCall pid url content) ∉ (remediate w pid l).1) := by
  refine ⟨by rw [remediate, hf], ?_, ?_⟩
  · intro l
    induction l with
    | nil => intro content h; cases h
    | cons v t ih =>
      intro content h
      cases hv : w.fetchUrl v with
      | none =>
        simp only [remediate, hv] at h
        rcases List.mem_cons.mp h with h | h
        · cases h
        · exact ih content h
      | some c0 =>
        cases hre : w.registerErr (mkRegisterCall pid v c0) with
        | some e =>
          simp only [remediate, hv, hre] at h
          simp only [List.mem_cons, List.not_mem_nil, or_false] at h
          rcases h with h | h | h
          · cases h
          · cases h; rw [hv] at hf; cases hf
          · cases h
        | none =>
          simp only [remediate, hv, hre] at h
          rcases List.mem_cons.mp h with h | h
          · cases h
          rcases List.mem_cons.mp h with h | h
          · cases h; rw [hv] at hf; cases hf
          rcases List.mem_cons.mp h with h | h
          · cases h
          · exact ih content h
  · intro l
    induction l with
    | nil => intro content h; cases h
    | cons v t ih =>
      intro content h
      cases hv : w.fetchUrl v with
      | none =>
        simp only [remediate, hv] at h
        rcases List.mem_cons.mp h with h | h
        · cases h
        · exact ih content h
      | some c0 =>
        cases hre : w.registerErr (mkRegisterCall pid v c0) with
        | some e =>
          simp only [remediate, hv, hre] at h
          simp only [List.mem_cons, List.not_mem_nil, or_false] at h
          rcases h with h | h | h
          · cases h
          · cases h
          · have hv2 : v = url := congrArg RegisterCall.name (Event.register.inj h).symm
            rw [hv2] at hv
            rw [hv] at hf
            cases hf
        | none =>
          simp only [remediate, hv, hre] at h
          rcases List.mem_cons.mp h with h | h
          · cases h
          rcases List.mem_cons.mp h with h | h
          · cases h
          rcases List.mem_cons.mp h with h | h
          · have hv2 : v = url := congrArg RegisterCall.name (Event.register.inj h).symm
            rw [hv2] at hv
            rw [hv] at hf
            cases hf
          · exact ih content h

/-- Claim C6, witness: a world whose fetch of fw1 fails skips it with a
lone fetch event and never writes or registers it. -/
theorem C6_failed_fetch_skipped_witness :
    remediate w4 (some "p1") ["https://x/fw1", "https://x/fw2"] =
      (Event.fetchAsset "https://x/fw1" ::
        (remediate w4 (some "p1") ["https://x/fw2"]).1,
        (remediate w4 (some "p1") ["https://x/fw2"]).2) ∧
    (∀ l content, Event.writeScratchFile "https://x/fw1" content ∉
      (remediate w4 (some "p1") l).1) ∧
    (∀ l content,
      Event.register (mkRegisterCall (some "p1") "https://x/fw1" content) ∉
        (remediate w4 (some "p1") l).1) :=
  C6_failed_fetch_skipped w4 (some "p1") "https://x/fw1" ["https://x/fw2"] rfl

/-- Splitting a remediation run: a prefix processed without a
registration error contributes its events and the run continues with
the remaining list. -/
theorem remediate_append (w : World) (pid : Option String) :
    ∀ pre l, (remediate w pid pre).2 = none →
      remediate w pid (pre ++ l) =
        ((remediate w pid pre).1 ++ (remediate w pid l).1,
          (remediate w pid l).2) := by
  intro pre
  induction pre with
  | nil => intro l _; simp [remediate]
  | cons v t ih =>
    intro l hpre
    cases hv : w.fetchUrl v with
    | none =>
      have ht : (remediate w pid t).2 = none := by
        simpa [remediate, hv] using hpre
      simp [remediate, hv, List.cons_append, ih l ht]
    | some c0 =>
      cases hre : w.registerErr (mkRegisterCall pid v c0) with
      | some e =>
        exfalso
        simp [remediate, hv, hre] at hpre
      | none =>
        have ht : (remediate w pid t).2 = none := by
          simpa [remediate, hv, hre] using hpre
        simp [remediate, hv, hre, List.cons_append, ih l ht]

/-- Every fetch event of a remediation trace names a URL of the list. -/
theorem remediate_fetch_inv (w : World) (pid : Option String) :
    ∀ l u, Event.fetchAsset u ∈ (remediate w pid l).1 → u ∈ l := by
  intro l
  induction l with
  | nil => intro u h; cases h
  | cons v t ih =>
    intro u h
    cases hv : w.fetchUrl v with
    | none =>
      simp only [remediate, hv] at h
      rcases List.mem_cons.mp h with h | h
      · cases h; exact List.mem_cons_self v t
      · exact List.mem_cons_of_mem _ (ih u h)
    | some c0 =>
      cases hre : w.registerErr (mkRegisterCall pid v c0) with
      | some e =>
        simp only [remediate, hv, hre] at h
        simp only [List.mem_cons, List.not_mem_nil, or_false] at h
        rcases h with h | h | h
        · cases h; exact List.mem_cons_self v t
        · cases h
        · cases h
      | none =>
        simp only [remediate, hv, hre] at h
        rcases List.mem_cons.mp h with h | h
        · cases h; exact List.mem_cons_self v t
        rcases List.mem_cons.mp h with h | h
        · cases h
        rcases List.mem_cons.mp h with h | h
        · cases h
        · exact List.mem_cons_of_mem _ (ih u h)

/-- True exactly on post events. -/
def isPost : Event → Bool
  | Event.post _ => true
  | _ => false

/-- A remediation trace contains no post event. -/
theorem remediate_filter_post (w : World) (pid : Option String) :
    ∀ l, (remediate w pid l).1.filter isPost = [] := by
  intro l
  induction l with
  | nil => rfl
  | cons v t ih =>
    cases hv : w.fetchUrl v with
    | none => simp [remediate, hv, isPost, ih]
    | some c0 =>
      cases hre : w.registerErr (mkRegisterCall pid v c0) with
      | some e => simp [remediate, hv, hre, isPost]
      | none => simp [remediate, hv, hre, isPost, ih]

/-- Claim C7: when the registration of some asset of the list fails —
the assets before it having been processed without a registration
error — the error is not caught: the run ends with the post, the
processed prefix's events, and the failing asset's fetch, scratch write
and registration attempt; the registration error propagates as the
outcome, no asset outside the processed prefix and the failing one is
ever fetched or registered, and the single post of the trace means no
retry creation request is issued. -/
theorem C7_registration_failure_aborts (w : World) (a : CreateArgs)
    (p : ErrorPayload) (pre : List String) (url : String)
    (rest : List String) (content e : String) (fuel : Nat)
    (hs : w.server 0 = Sum.inr p)
    (hm : p.missingFwAssets = some (pre ++ url :: rest))
    (he : w.envVar 0 = some "1")
    (hpre : (remediate w p.projectId pre).2 = none)
    (hf : w.fetchUrl url = some content)
    (hre : w.registerErr (mkRegisterCall p.projectId url content) = some e) :
    create w (fuel + 1) a =
      (Event.post (mkSentBody a) ::
        ((remediate w p.projectId pre).1 ++
          [Event.fetchAsset url, Event.writeScratchFile url content,
            Event.register (mkRegisterCall p.projectId url content)]),
        Outcome.threw (ThrownError.registrationError e)) ∧
    (∀ u, u ∉ pre → u ≠ url →
      Event.fetchAsset u ∉ (create w (fuel + 1) a).1) ∧
    (∀ u content2, u ∉ pre → u ≠ url →
      Event.register (mkRegisterCall p.projectId u content2) ∉
        (create w (fuel + 1) a).1) ∧
    (create w (fuel + 1) a).1.filter isPost = [Event.post (mkSentBody a)] := by
  have hurl : remediate w p.projectId (url :: rest) =
      ([Event.fetchAsset url, Event.writeScratchFile url content,
        Event.register (mkRegisterCall p.projectId url content)], some e) := by
    simp [remediate, hf, hre]
  have hrem : remediate w p.projectId (pre ++ url :: rest) =
      ((remediate w p.projectId pre).1 ++
        [Event.fetchAsset url, Event.writeScratchFile url content,
          Event.register (mkRegisterCall p.projectId url content)], some e) := by
    rw [remediate_append w p.projectId pre (url :: rest) hpre, hurl]
  have htrace : create w (fuel + 1) a =
      (Event.post (mkSentBody a) ::
        ((remediate w p.projectId pre).1 ++
          [Event.fetchAsset url, Event.writeScratchFile url content,
            Event.register (mkRegisterCall p.projectId url content)]),
        Outcome.threw (ThrownError.registrationError e)) := by
    simp [create, createLoop, hs, classify_of_some p _ hm, he, hrem]
  refine ⟨htrace, ?_, ?_, ?_⟩
  · intro u hupre huurl hmem
    rw [htrace] at hmem
    rcases List.mem_cons.mp hmem with h | h
    · cases h
    rcases List.mem_append.mp h with h | h
    · exact hupre (remediate_fetch_inv w p.projectId pre u h)
    rcases List.mem_cons.mp h with h | h
    · cases h; exact huurl rfl
    rcases List.mem_cons.mp h with h | h
    · cases h
    rcases List.mem_cons.mp h with h | h
    · cases h
    · cases h
  · intro u content2 hupre huurl hmem
    rw [htrace] at hmem
    rcases List.mem_cons.mp hmem with h | h
    · cases h
    rcases List.mem_append.mp h with h | h
    · obtain ⟨u2, c2, hu2, _, hcall⟩ :=
        remediate_register_inv w p.projectId pre _ h
      have h2 : u = u2 := congrArg RegisterCall.name hcall
      exact hupre (h2 ▸ hu2)
    rcases List.mem_cons.mp h with h | h
    · cases h
    rcases List.mem_cons.mp h with h | h
    · cases h
    rcases List.mem_cons.mp h with h | h
    · have h2 : u = url := congrArg RegisterCall.name (Event.register.inj h)
      exact huurl h2
    · cases h
  · rw [htrace]
    simp [List.filter_append, isPost, remediate_filter_post w p.projectId pre]

/-- World whose registrar rejects every submission while the fetch of
the first listed asset fails, so the second listed asset is the one
whose registration aborts the run. -/
def w7 : World :=
  { server := fun _ => Sum.inr sampleMissingPayload
    envVar := fun _ => some "1"
    fetchUrl := fun u => if u = "https://x/fw1" then none else some "blob"
    registerErr := fun _ => some "image quota exceeded"
    listResp := Sum.inl ""
    searchResp := fun _ => Sum.inl "" }

/-- Claim C7, witness: the registration failure hits the second asset of
the list, after the first was processed (skipped) without error. -/
theorem C7_registration_failure_aborts_witness :
    create w7 1 a0 =
      (Event.post (mkSentBody a0) ::
        ((remediate w7 (some "p1") ["https://x/fw1"]).1 ++
          [Event.fetchAsset "https://x/fw2",
            Event.writeScratchFile "https://x/fw2" "blob",
            Event.register (mkRegisterCall (some "p1") "https://x/fw2" "blob")]),
        Outcome.threw (ThrownError.registrationError "image quota exceeded")) ∧
    (∀ u, u ∉ ["https://x/fw1"] → u ≠ "https://x/fw2" →
      Event.fetchAsset u ∉ (create w7 1 a0).1) ∧
    (∀ u content2, u ∉ ["https://x/fw1"] → u ≠ "https://x/fw2" →
      Event.register (mkRegisterCall (some "p1") u content2) ∉
        (create w7 1 a0).1) ∧
    (create w7 1 a0).1.filter isPost = [Event.post (mkSentBody a0)] :=
  C7_registration_failure_aborts w7 a0 sampleMissingPayload
    ["https://x/fw1"] "https://x/fw2" [] "blob" "image quota exceeded" 0
    rfl rfl rfl (by decide) (by decide) (by decide)

/-- Claim C8: every registration call issued during a creation run
carries exactly the fixed metadata — type fwasset, encoding plain,
encapsulated false — a name equal to the asset's source URL, the fetched
content as file, and the project id of the missing-asset failure whose
list contained that URL. -/
theorem C8_register_call_shape (w : World) (a : CreateArgs) (fuel : Nat)
    (c : RegisterCall)
    (hc : Event.register c ∈ (create w fuel a).1) :
    c.type = "fwasset" ∧ c.encoding = "plain" ∧ c.encapsulated = false ∧
    w.fetchUrl c.name = some c.file ∧
    ∃ n p, w.server n = Sum.inr p ∧ c.project = p.projectId ∧
      ∃ urls, p.missingFwAssets = some urls ∧ c.name ∈ urls := by
  obtain ⟨n, p, urls, u, content, hsn, hm, hu, hfu, heq⟩ :=
    createLoop_register_inv w a fuel 0 c hc
  subst heq
  exact ⟨rfl, rfl, rfl, hfu, n, p, hsn, rfl, urls, hm, hu⟩

/-- Claim C8, witness: the registration of fw1 in the two-asset run. -/
theorem C8_register_call_shape_witness :
    (mkRegisterCall (some "p1") "https://x/fw1" "blob").type = "fwasset" ∧
    (mkRegisterCall (some "p1") "https://x/fw1" "blob").encoding = "plain" ∧
    (mkRegisterCall (some "p1") "https://x/fw1" "blob").encapsulated = false ∧
    w2.fetchUrl (mkRegisterCall (some "p1") "https://x/fw1" "blob").name =
      some (mkRegisterCall (some "p1") "https://x/fw1" "blob").file ∧
    ∃ n p, w2.server n = Sum.inr p ∧
      (mkRegisterCall (some "p1") "https://x/fw1" "blob").project = p.projectId ∧
      ∃ urls, p.missingFwAssets = some urls ∧
        (mkRegisterCall (some "p1") "https://x/fw1" "blob").name ∈ urls :=
  C8_register_call_shape w2 a0 2 _ (by decide)

/-- Claim C9: at any attempt that the server answers with a missing-asset
error, the gate reads the environment variable of that very attempt: any
value other than the exact string 1 — unset included — surfaces the
opt-in error with only the post in the trace, and exactly the value 1
enters remediation and recursion; the gate at attempt n depends on the
variable as read at attempt n, not on a cached earlier read. -/
theorem C9_env_gate_exact_and_reread (w : World) (a : CreateArgs)
    (n fuel : Nat) (p : ErrorPayload) (urls : List String)
    (hs : w.server n = Sum.inr p)
    (hm : p.missingFwAssets = some urls)
    (hr : ∀ c, w.registerErr c = none) :
    (w.envVar n ≠ some "1" →
      createLoop w a n (fuel + 1) =
        ([Event.post (mkSentBody a)],
          Outcome.threw (ThrownError.plainError remediationDisabledMessage))) ∧
    (w.envVar n = some "1" →
      createLoop w a n (fuel + 1) =
        (Event.post (mkSentBody a) ::
          ((remediate w p.projectId urls).1 ++ (createLoop w a (n + 1) fuel).1),
          (createLoop w a (n + 1) fuel).2)) := by
  constructor
  · intro he
    simp [createLoop, hs, classify_of_some p urls hm, he]
  · intro he
    exact createLoop_remediation_step w a n fuel p urls hs hm he
      (remediate_err_none w p.projectId hr urls)

/-- World whose variable holds the string true at attempt 0 but the
string 1 at attempt 1, while the server keeps reporting missing assets. -/
def w9 : World :=
  { server := fun _ => Sum.inr sampleMissingPayload
    envVar := fun n => if n = 0 then some "true" else some "1"
    fetchUrl := fun _ => none
    registerErr := fun _ => none
    listResp := Sum.inl ""
    searchResp := fun _ => Sum.inl "" }

/-- Claim C9, witness: with the variable reading true at attempt 0 the
gate refuses, and the same world's read at attempt 1 — the value 1 —
enters remediation, so the per-attempt read governs. -/
theorem C9_env_gate_exact_and_reread_witness :
    (createLoop w9 a0 0 1 =
      ([Event.post (mkSentBody a0)],
        Outcome.threw (ThrownError.plainError remediationDisabledMessage))) ∧
    (createLoop w9 a0 1 1 =
      (Event.post (mkSentBody a0) ::
        ((remediate w9 (some "p1") ["https://x/fw1", "https://x/fw2"]).1 ++
          (createLoop w9 a0 2 0).1),
        (createLoop w9 a0 2 0).2)) :=
  ⟨(C9_env_gate_exact_and_reread w9 a0 0 0 sampleMissingPayload
      ["https://x/fw1", "https://x/fw2"] rfl rfl (fun _ => rfl)).1 (by decide),
    (C9_env_gate_exact_and_reread w9 a0 1 0 sampleMissingPayload
      ["https://x/fw1", "https://x/fw2"] rfl rfl (fun _ => rfl)).2 rfl⟩

/-- Claim C10: an error payload of the listing endpoint — with or
without a missingFwAssets field — makes list and search throw a bare
Error carrying the payload's error message; no data is returned, the
trace is the single GET, and no classification, fetch, registration or
retry ever happens there. -/
theorem C10_list_search_plain_error (w : World) (p q : ErrorPayload)
    (name : String)
    (hl : w.listResp = Sum.inr p)
    (hq : w.searchResp name = Sum.inr q) :
    CorelliumTS.list w =
      ([Event.getInstances none],
        Except.error (ThrownError.plainError p.error)) ∧
    search w name =
      ([Event.getInstances (some name)],
        Except.error (ThrownError.plainError q.error)) := by
  constructor
  · simp [CorelliumTS.list, hl]
  · simp [search, hq]

/-- World whose listing endpoint fails with a payload that even carries a
missingFwAssets field. -/
def w10 : World :=
  { server := fun _ => Sum.inl ""
    envVar := fun _ => some "1"
    fetchUrl := fun _ => some "blob"
    registerErr := fun _ => none
    listResp := Sum.inr sampleMissingPayload
    searchResp := fun _ => Sum.inr sampleMissingPayload }

/-- Claim C10, witness: even a missing-asset payload surfaces from list
and search as the bare message error. -/
theorem C10_list_search_plain_error_witness :
    CorelliumTS.list w10 =
      ([Event.getInstances none],
        Except.error (ThrownError.plainError "firmware assets missing")) ∧
    search w10 "d1" =
      ([Event.getInstances (some "d1")],
        Except.error (ThrownError.plainError "firmware assets missing")) :=
  C10_list_search_plain_error w10 sampleMissingPayload sampleMissingPayload
    "d1" rfl rfl

end CorelliumTS
